import Mathlib

/-!
Verification of the packet-forwarding engine of a mesh-fabric router
(`router/forwarder/forwarder.go`).  The forwarder's own logic is embedded
from the source; the three table collaborators (`sessionTable`,
`destinationTable`, `forwardTable`) are not part of the provided sources,
so they are modelled from the specification (§4.1, §4.2) as finite maps
from strings, written as functions into `Option`.
-/

namespace ZitiForwarder

/-- An opaque string token naming an endpoint on this router. -/
abbrev Address := String

/-- An opaque string identifying an end-to-end circuit. -/
abbrev SessionId := String

/-- Error result of a destination send, `some e` being an error code. -/
abbrev SendErr := Nat

/-- A payload; only the session id retrieved by `GetSessionId` matters here. -/
structure Payload where
  sessionId : SessionId

/-- An acknowledgement carrying its `SessionId` field. -/
structure Acknowledgement where
  sessionId : SessionId

/-- Data of an `XgressDestination`: the `Destination` capabilities plus the
extra operations `GetTimeOfLastRxFromLink`, `IsTerminator` and `Label`.
Send behaviour is modelled as a function from the message to an optional
error, `none` meaning success. -/
structure XgressData where
  sendPayloadResult : Payload → Option SendErr
  sendAckResult : Acknowledgement → Option SendErr
  timeOfLastRxFromLink : Int
  isTerminatorFlag : Bool
  labelText : String

/-- Data of a link destination: the link's identity token plus its send
behaviour. -/
structure LinkData where
  token : String
  sendPayloadResult : Payload → Option SendErr
  sendAckResult : Acknowledgement → Option SendErr

/-- A polymorphic destination: either a local xgress endpoint or a link to a
peer router.  The `link` variant implements only the `Destination`
interface, not `XgressDestination`. -/
inductive Destination where
  | xgress (x : XgressData)
  | link (l : LinkData)

/-- `SendPayload` on either destination variant. -/
def Destination.sendPayload : Destination → Payload → Option SendErr
  | .xgress x, p => x.sendPayloadResult p
  | .link l, p => l.sendPayloadResult p

/-- `SendAcknowledgement` on either destination variant. -/
def Destination.sendAcknowledgement : Destination → Acknowledgement → Option SendErr
  | .xgress x, a => x.sendAckResult a
  | .link l, a => l.sendAckResult a

/-- The Go type assertion `destination.(XgressDestination)`: succeeds exactly
when the dynamic type implements `XgressDestination`; `none` models the
panic of an unchecked assertion on a link. -/
def Destination.asXgress : Destination → Option XgressData
  | .xgress x => some x
  | .link _ => none

/-- Modelled from the spec: a `forwardTable` maps source-address to
destination-address, uniquely keyed (§4.2). -/
abbrev ForwardTable := Address → Option Address

/-- Modelled from the spec: the address → destination half of the
`destinationTable` (§4.1 mapping (1)). -/
abbrev DestMap := Address → Option Destination

/-- Modelled from the spec: the sessionId → set-of-addresses half of the
`destinationTable` (§4.1 mapping (2)); the set is an insertion-ordered list
with duplicates collapsed. -/
abbrev SessionAddrMap := SessionId → Option (List Address)

/-- Modelled from the spec: the `sessionTable` maps session-id to
`forwardTable` (§4.2). -/
abbrev SessionMap := SessionId → Option ForwardTable

/-- Map update, last writer wins. -/
def setKey {α : Type} (m : String → Option α) (k : String) (v : α) : String → Option α :=
  fun k' => if k' = k then some v else m k'

/-- Map removal. -/
def removeKey {α : Type} (m : String → Option α) (k : String) : String → Option α :=
  fun k' => if k' = k then none else m k'

/-- The forwarder state: the session table and the two halves of the
destination table.  The metrics registry, faulter, scanner, trace
controller and options collaborators carry no state relevant to the
verified operations and are omitted. -/
@[ext] structure Forwarder where
  sessions : SessionMap
  destinations : DestMap
  sessionAddresses : SessionAddrMap

/-- One forward of a `ctrl_pb.Route` message. -/
structure Forward where
  srcAddress : Address
  dstAddress : Address

/-- A `ctrl_pb.Route` control message. -/
structure RouteMsg where
  sessionId : SessionId
  forwards : List Forward

/-- `newForwardTable()`: the empty forward table. -/
def newForwardTable : ForwardTable := fun _ => none

/-- `forwardTable.setForwardAddress` (modelled from the spec §4.2:
last-writer-wins). -/
def setForwardAddress (ft : ForwardTable) (src dst : Address) : ForwardTable :=
  setKey ft src dst

/-- The `for _, forward := range route.Forwards` loop body of `Route`:
install each forward in turn. -/
def applyForwards : ForwardTable → List Forward → ForwardTable
  | ft, [] => ft
  | ft, fw :: rest => applyForwards (setForwardAddress ft fw.srcAddress fw.dstAddress) rest

/-- The get-or-create step at the head of `Route` (spec §4.2
`GetOrCreateForwardTable`): the session's existing table, or a fresh empty
one. -/
def getOrCreateForwardTable (m : SessionMap) (sessionId : SessionId) : ForwardTable :=
  match m sessionId with
  | some ft => ft
  | none => newForwardTable

/-- `Forwarder.Route`: fetch the session's forward table or create a fresh
one, install every forward of the message, and store the table back. -/
def route (f : Forwarder) (msg : RouteMsg) : Forwarder :=
  let sessionFt := getOrCreateForwardTable f.sessions msg.sessionId
  { f with sessions := setKey f.sessions msg.sessionId (applyForwards sessionFt msg.forwards) }

/-- `destinationTable.addDestination` (modelled from the spec §4.1:
idempotent overwrite, last writer wins). -/
def addDestination (f : Forwarder) (addr : Address) (dest : Destination) : Forwarder :=
  { f with destinations := setKey f.destinations addr dest }

/-- `destinationTable.removeDestination` (modelled from the spec §4.1:
removes from mapping (1) only). -/
def removeDestination (f : Forwarder) (addr : Address) : Forwarder :=
  { f with destinations := removeKey f.destinations addr }

/-- `destinationTable.linkDestinationToSession` (modelled from the spec
§4.1: adds the address to the session's address set; duplicates
collapsed). -/
def linkDestinationToSession (f : Forwarder) (sessionId : SessionId) (addr : Address) : Forwarder :=
  { f with sessionAddresses := fun s =>
      if s = sessionId then
        some (match f.sessionAddresses sessionId with
              | some addrs => if addr ∈ addrs then addrs else addrs ++ [addr]
              | none => [addr])
      else f.sessionAddresses s }

/-- `destinationTable.unlinkSession` (modelled from the spec §4.1: removes
the session key from mapping (2); does not touch mapping (1)). -/
def unlinkSession (f : Forwarder) (sessionId : SessionId) : Forwarder :=
  { f with sessionAddresses := removeKey f.sessionAddresses sessionId }

/-- `Forwarder.RegisterDestination`: `addDestination` then
`linkDestinationToSession`, in that order. -/
def registerDestination (f : Forwarder) (sessionId : SessionId) (addr : Address) (dest : Destination) : Forwarder :=
  linkDestinationToSession (addDestination f addr dest) sessionId addr

/-- `Forwarder.HasDestination`. -/
def hasDestination (f : Forwarder) (addr : Address) : Bool :=
  (f.destinations addr).isSome

/-- `Forwarder.RegisterLink`: adds the link as a destination keyed by its
identity token. -/
def registerLink (f : Forwarder) (l : LinkData) : Forwarder :=
  addDestination f l.token (.link l)

/-- `Forwarder.UnregisterLink`: removes the destination keyed by the link's
identity token. -/
def unregisterLink (f : Forwarder) (l : LinkData) : Forwarder :=
  removeDestination f l.token

/-- The `for _, address := range addresses` loop of
`UnregisterDestinations`: for each address with a registered destination,
remove the destination and dispatch its `Unrouted()` (the dispatched calls
are collected in order); the unchecked type assertion
`destination.(XgressDestination)` on a non-xgress destination panics,
modelled as `none`. -/
def unregLoop : Forwarder → List Address → Option (Forwarder × List XgressData)
  | f, [] => some (f, [])
  | f, address :: rest =>
    match f.destinations address with
    | some destination =>
      match (removeDestination f address, destination.asXgress) with
      | (f1, some x) =>
        match unregLoop f1 rest with
        | some (f2, calls) => some (f2, x :: calls)
        | none => none
      | (_, none) => none
    | none => unregLoop f rest

/-- `Forwarder.UnregisterDestinations`: fetch the session's address set; if
present, run the removal loop and finally unlink the session; if absent,
no-op.  `none` models a panic of the unchecked type assertion. -/
def unregisterDestinations (f : Forwarder) (sessionId : SessionId) : Option (Forwarder × List XgressData) :=
  match f.sessionAddresses sessionId with
  | some addresses =>
    match unregLoop f addresses with
    | some (f1, calls) => some (unlinkSession f1 sessionId, calls)
    | none => none
  | none => some (f, [])

/-- `Forwarder.EndSession`: invokes `UnregisterDestinations`. -/
def endSession (f : Forwarder) (sessionId : SessionId) : Option (Forwarder × List XgressData) :=
  unregisterDestinations f sessionId

/-- `sessionTable.removeForwardTable` (modelled from the spec §4.2). -/
def removeForwardTable (f : Forwarder) (sessionId : SessionId) : Forwarder :=
  { f with sessions := removeKey f.sessions sessionId }

/-- `Forwarder.Unroute` with `now = true`: remove the forward table, then
end the session. -/
def unrouteImmediate (f : Forwarder) (sessionId : SessionId) : Option (Forwarder × List XgressData) :=
  endSession (removeForwardTable f sessionId) sessionId

/-- Result of a forward operation: success, one of the three lookup
errors, or the verbatim error of the destination's send. -/
inductive ForwardResult where
  | ok
  | errNoForwardTable
  | errNoDestinationAddress
  | errNoDestination
  | errSend (e : SendErr)
deriving DecidableEq

/-- `Forwarder.ForwardPayload`: session → src → dst → destination lookup
chain, then `SendPayload`.  The state component records that the method
leaves the forwarder unchanged on every path. -/
def forwardPayload (f : Forwarder) (srcAddr : Address) (payload : Payload) : Forwarder × ForwardResult :=
  match f.sessions payload.sessionId with
  | some forwardTable =>
    match forwardTable srcAddr with
    | some dstAddr =>
      match f.destinations dstAddr with
      | some dst =>
        match dst.sendPayload payload with
        | some e => (f, .errSend e)
        | none => (f, .ok)
      | none => (f, .errNoDestination)
    | none => (f, .errNoDestinationAddress)
  | none => (f, .errNoForwardTable)

/-- `Forwarder.ForwardAcknowledgement`: the identical lookup chain using
the acknowledgement's session id, calling `SendAcknowledgement`. -/
def forwardAcknowledgement (f : Forwarder) (srcAddr : Address) (ack : Acknowledgement) : Forwarder × ForwardResult :=
  match f.sessions ack.sessionId with
  | some forwardTable =>
    match forwardTable srcAddr with
    | some dstAddr =>
      match f.destinations dstAddr with
      | some dst =>
        match dst.sendAcknowledgement ack with
        | some e => (f, .errSend e)
        | none => (f, .ok)
      | none => (f, .errNoDestination)
    | none => (f, .errNoDestinationAddress)
  | none => (f, .errNoForwardTable)

/-- Outcome of `getXgressForSession`: the first destination found, none at
all, or the panic of the unchecked type assertion. -/
inductive XgSearch where
  | found (x : XgressData)
  | noneFound
  | panicked
deriving Inhabited

/-- The search loop of `getXgressForSession`: return the first address's
registered destination, asserted to be an `XgressDestination`. -/
def xgSearchLoop (f : Forwarder) : List Address → XgSearch
  | [] => .noneFound
  | address :: rest =>
    match f.destinations address with
    | some destination =>
      match destination.asXgress with
      | some x => .found x
      | none => .panicked
    | none => xgSearchLoop f rest

/-- `Forwarder.getXgressForSession`. -/
def getXgressForSession (f : Forwarder) (sessionId : SessionId) : XgSearch :=
  match f.sessionAddresses sessionId with
  | some addresses => xgSearchLoop f addresses
  | none => .noneFound

/-- Event delivered to the unroute timeout worker's select: a ticker tick
carrying `info.NowInMilliseconds()`, or the close-notify signal. -/
inductive WorkerEvent where
  | tick (nowMs : Int)
  | closeNotify

/-- Outcome of one iteration of the unroute timeout worker. -/
inductive StepResult where
  | reaped (f : Forwarder) (unrouted : List XgressData)
  | stillScheduled (f : Forwarder)
  | exited (f : Forwarder)
  | panicked

/-- `time.Millisecond` in nanoseconds. -/
def timeDurationMillisecond : Int := 1000000

/-- The reap action of `unrouteTimeout`: `removeForwardTable` then
`EndSession`, then the worker returns. -/
def reapSession (f : Forwarder) (sessionId : SessionId) : StepResult :=
  match endSession (removeForwardTable f sessionId) sessionId with
  | some (f1, calls) => .reaped f1 calls
  | none => .panicked

/-- One iteration of the `for { select { ... } }` loop of
`Forwarder.unrouteTimeout`, for a given event.  `intervalNs` is the
`time.Duration` interval in nanoseconds. -/
def unrouteTimeoutStep (f : Forwarder) (sessionId : SessionId) (intervalNs : Int) : WorkerEvent → StepResult
  | .tick nowMs =>
    match getXgressForSession f sessionId with
    | .found dest =>
      if (nowMs - dest.timeOfLastRxFromLink) * timeDurationMillisecond ≥ intervalNs then
        reapSession f sessionId
      else
        .stillScheduled f
    | .noneFound => reapSession f sessionId
    | .panicked => .panicked
  | .closeNotify => .exited f

/-- The last forward in a list for a given source address, if any:
characterises last-writer-wins installation. -/
def lastForwardFor (src : Address) : List Forward → Option Address
  | [] => none
  | fw :: rest =>
    match lastForwardFor src rest with
    | some d => some d
    | none => if fw.srcAddress = src then some fw.dstAddress else none

/-- Invariant I1 of the spec: every address linked to a session resolves in
the destination map. -/
def DestLinkInvariant (f : Forwarder) : Prop :=
  ∀ sid addrs a, f.sessionAddresses sid = some addrs → a ∈ addrs → (f.destinations a).isSome

/-- Follows the spec's words (§4.3, ForwardPayload steps 1–5): read the
session id from the payload; fetch the forward table for it, failing with
"no forward table" when absent; fetch the destination address for the
source address, failing with "no destination address" when absent; fetch
the destination, failing with "no destination" when absent; call
`SendPayload` and return its error verbatim, nil on success. -/
def specForwardPayloadChain (f : Forwarder) (srcAddr : Address) (payload : Payload) : ForwardResult :=
  match f.sessions payload.sessionId with
  | none => .errNoForwardTable
  | some forwardTable =>
    match forwardTable srcAddr with
    | none => .errNoDestinationAddress
    | some dstAddr =>
      match f.destinations dstAddr with
      | none => .errNoDestination
      | some dst =>
        match dst.sendPayload payload with
        | some e => .errSend e
        | none => .ok

/-- The forwarder with all three tables empty. -/
def emptyForwarder : Forwarder :=
  ⟨fun _ => none, fun _ => none, fun _ => none⟩

/-- A concrete xgress destination whose sends always succeed and whose last
receive from a link was at time 0. -/
def sampleXgress : XgressData :=
  ⟨fun _ => none, fun _ => none, 0, false, "xg"⟩

/-- A concrete link destination with identity token `lt`. -/
def sampleLink : LinkData :=
  ⟨"lt", fun _ => none, fun _ => none⟩

/-- A forwarder with an xgress destination at `b` for session `s1` and a
route `a → b` installed for `s1`. -/
def routedForwarder : Forwarder :=
  route (registerDestination emptyForwarder "s1" "b" (.xgress sampleXgress)) ⟨"s1", [⟨"a", "b"⟩]⟩

/-- The forwarder state after `unrouteImmediate routedForwarder "s1"`. -/
def unroutedForwarder : Forwarder :=
  unlinkSession (removeDestination (removeForwardTable routedForwarder "s1") "b") "s1"

/-- A forwarder whose session `s1` is linked to an xgress destination at
`ax` and, behind it, a link destination at `al`. -/
def mixedForwarder : Forwarder :=
  registerDestination (registerDestination emptyForwarder "s1" "ax" (.xgress sampleXgress)) "s1" "al" (.link sampleLink)

/-- A forwarder whose session `s2` is linked only to a link destination. -/
def linkOnlyForwarder : Forwarder :=
  registerDestination emptyForwarder "s2" "al" (.link sampleLink)

/-- A forwarder with an idle xgress destination registered for session
`s7`. -/
def idleForwarder : Forwarder :=
  registerDestination emptyForwarder "s7" "ax" (.xgress sampleXgress)

/-- Reading back the key just written. -/
theorem setKey_self {α : Type} (m : String → Option α) (k : String) (v : α) :
    setKey m k v k = some v := by
  simp [setKey]

/-- Overwriting a key absorbs the previous write. -/
theorem setKey_setKey {α : Type} (m : String → Option α) (k : String) (v w : α) :
    setKey (setKey m k v) k w = setKey m k w := by
  funext k'
  by_cases h : k' = k <;> simp [setKey, h]

/-- Reading back a removed key. -/
theorem removeKey_self {α : Type} (m : String → Option α) (k : String) :
    removeKey m k k = none := by
  simp [removeKey]

/-- Removing an absent key changes nothing. -/
theorem removeKey_eq_of_none {α : Type} (m : String → Option α) (k : String)
    (h : m k = none) : removeKey m k = m := by
  funext k'
  by_cases hk : k' = k
  · subst hk; simp [removeKey, h]
  · simp [removeKey, hk]

/-- Installing a list of forwards realises last-writer-wins per source
address. -/
theorem applyForwards_apply (fwds : List Forward) : ∀ (ft : ForwardTable) (src : Address),
    applyForwards ft fwds src =
      match lastForwardFor src fwds with
      | some d => some d
      | none => ft src := by
  induction fwds with
  | nil => intro ft src; rfl
  | cons fw rest ih =>
    intro ft src
    show applyForwards (setForwardAddress ft fw.srcAddress fw.dstAddress) rest src = _
    rw [ih]
    cases h : lastForwardFor src rest with
    | some d => simp [lastForwardFor, h]
    | none =>
      simp only [lastForwardFor, h]
      by_cases hsrc : fw.srcAddress = src
      · subst hsrc; simp [setForwardAddress, setKey]
      · rw [if_neg hsrc]
        show setKey ft fw.srcAddress fw.dstAddress src = ft src
        rw [setKey, if_neg (fun hh => hsrc hh.symm)]

/-- Installing the same list of forwards a second time changes nothing. -/
theorem applyForwards_idem (fwds : List Forward) (ft : ForwardTable) :
    applyForwards (applyForwards ft fwds) fwds = applyForwards ft fwds := by
  funext src
  rw [applyForwards_apply, applyForwards_apply]
  cases h : lastForwardFor src fwds with
  | some d => simp
  | none => simp [applyForwards_apply, h]

/-- The unregister loop never touches the session table or the
session→address index. -/
theorem unregLoop_preserves : ∀ (addrs : List Address) (f f1 : Forwarder) (calls : List XgressData),
    unregLoop f addrs = some (f1, calls) →
    f1.sessions = f.sessions ∧ f1.sessionAddresses = f.sessionAddresses := by
  intro addrs
  induction addrs with
  | nil =>
    intro f f1 calls h
    simp only [unregLoop, Option.some.injEq, Prod.mk.injEq] at h
    rw [← h.1]
    exact ⟨rfl, rfl⟩
  | cons b rest ih =>
    intro f f1 calls h
    cases hb : f.destinations b with
    | none =>
      simp only [unregLoop, hb] at h
      exact ih f f1 calls h
    | some d =>
      cases hxg : d.asXgress with
      | none =>
        simp only [unregLoop, hb, hxg] at h
        exact Option.noConfusion h
      | some x =>
        simp only [unregLoop, hb, hxg] at h
        cases hrec : unregLoop (removeDestination f b) rest with
        | none => rw [hrec] at h; simp at h
        | some p =>
          rw [hrec] at h
          simp only [Option.some.injEq, Prod.mk.injEq] at h
          obtain ⟨h1, -⟩ := h
          have := ih (removeDestination f b) p.1 p.2 (by rw [hrec])
          rw [← h1]
          exact this

/-- Full characterisation of the unregister loop when every found
destination is an xgress destination and the addresses are distinct. -/
theorem unregLoop_spec : ∀ (addrs : List Address) (f : Forwarder),
    addrs.Nodup →
    (∀ a ∈ addrs, ∀ d, f.destinations a = some d → (d.asXgress).isSome) →
    ∃ f1 calls, unregLoop f addrs = some (f1, calls) ∧
      calls = addrs.filterMap (fun a => (f.destinations a).bind Destination.asXgress) ∧
      (∀ a ∈ addrs, f1.destinations a = none) ∧
      (∀ a, a ∉ addrs → f1.destinations a = f.destinations a) ∧
      f1.sessions = f.sessions ∧ f1.sessionAddresses = f.sessionAddresses := by
  intro addrs
  induction addrs with
  | nil =>
    intro f _ _
    exact ⟨f, [], rfl, rfl, by simp, fun a _ => rfl, rfl, rfl⟩
  | cons b rest ih =>
    intro f hnd hx
    obtain ⟨hbrest, hndrest⟩ := List.nodup_cons.mp hnd
    cases hb : f.destinations b with
    | none =>
      obtain ⟨f1, calls, hrun, hcalls, hgone, hframe, hsess, hsaddr⟩ :=
        ih f hndrest (fun a ha d hd => hx a (List.mem_cons_of_mem _ ha) d hd)
      refine ⟨f1, calls, ?_, ?_, ?_, ?_, hsess, hsaddr⟩
      · simp only [unregLoop, hb]
        exact hrun
      · rw [List.filterMap_cons]
        simp only [hb, Option.none_bind]
        exact hcalls
      · intro a ha
        rcases List.mem_cons.mp ha with rfl | ha'
        · rw [hframe a hbrest]
          exact hb
        · exact hgone a ha'
      · intro a ha
        exact hframe a (fun hmem => ha (List.mem_cons_of_mem _ hmem))
    | some d =>
      have hxg := hx b (List.mem_cons_self b rest) d hb
      cases hxgv : d.asXgress with
      | none => rw [hxgv] at hxg; simp at hxg
      | some x =>
        have hrest : ∀ a ∈ rest, ∀ d', (removeDestination f b).destinations a = some d' →
            (d'.asXgress).isSome := by
          intro a ha d' hd'
          have hne : a ≠ b := fun hh => hbrest (hh ▸ ha)
          rw [show (removeDestination f b).destinations a = f.destinations a from by
            simp [removeDestination, removeKey, hne]] at hd'
          exact hx a (List.mem_cons_of_mem _ ha) d' hd'
        obtain ⟨f2, calls, hrun, hcalls, hgone, hframe, hsess, hsaddr⟩ :=
          ih (removeDestination f b) hndrest hrest
        have hrdest : ∀ a, a ≠ b → (removeDestination f b).destinations a = f.destinations a := by
          intro a hne
          simp [removeDestination, removeKey, hne]
        refine ⟨f2, x :: calls, ?_, ?_, ?_, ?_, hsess, hsaddr⟩
        · simp only [unregLoop, hb, hxgv, hrun]
        · rw [List.filterMap_cons]
          simp only [hb, Option.some_bind, hxgv]
          rw [hcalls]
          congr 1
          apply List.filterMap_congr
          intro a ha
          rw [hrdest a (fun hh => hbrest (hh ▸ ha))]
        · intro a ha
          rcases List.mem_cons.mp ha with rfl | ha'
          · rw [hframe a hbrest]
            simp [removeDestination, removeKey]
          · exact hgone a ha'
        · intro a ha
          have hne : a ≠ b := fun hh => ha (hh ▸ List.mem_cons_self b rest)
          rw [hframe a (fun hmem => ha (List.mem_cons_of_mem _ hmem)), hrdest a hne]

/-- When `unregisterDestinations` returns (without panicking), the session
table is untouched and the session is gone from the session→address
index. -/
theorem unregisterDestinations_state (f f1 : Forwarder) (sid : SessionId) (calls : List XgressData)
    (h : unregisterDestinations f sid = some (f1, calls)) :
    f1.sessions = f.sessions ∧ f1.sessionAddresses sid = none := by
  cases haddr : f.sessionAddresses sid with
  | none =>
    simp only [unregisterDestinations, haddr, Option.some.injEq, Prod.mk.injEq] at h
    rw [← h.1]
    exact ⟨rfl, haddr⟩
  | some addrs =>
    simp only [unregisterDestinations, haddr] at h
    cases hrun : unregLoop f addrs with
    | none =>
      rw [hrun] at h
      exact Option.noConfusion h
    | some p =>
      rw [hrun] at h
      simp only [Option.some.injEq, Prod.mk.injEq] at h
      obtain ⟨h1, -⟩ := h
      obtain ⟨hsess, -⟩ := unregLoop_preserves addrs f p.1 p.2 (by rw [hrun])
      rw [← h1]
      exact ⟨hsess, by simp [unlinkSession, removeKey]⟩

/-- The unregister loop panics whenever some listed address holds a
registered destination that is not an xgress destination. -/
theorem unregLoop_panic : ∀ (addrs : List Address) (f : Forwarder) (a : Address) (d : Destination),
    a ∈ addrs → f.destinations a = some d → d.asXgress = none →
    unregLoop f addrs = none := by
  intro addrs
  induction addrs with
  | nil =>
    intro f a d ha
    exact absurd ha (List.not_mem_nil a)
  | cons b rest ih =>
    intro f a d ha hd hxg
    rcases List.mem_cons.mp ha with rfl | harest
    · simp only [unregLoop, hd, hxg]
    · cases hb : f.destinations b with
      | none =>
        simp only [unregLoop, hb]
        exact ih f a d harest hd hxg
      | some db =>
        cases hxgb : db.asXgress with
        | none => simp only [unregLoop, hb, hxgb]
        | some xb =>
          by_cases hab : a = b
          · subst hab
            rw [hd] at hb
            injection hb with hddb
            subst hddb
            rw [hxg] at hxgb
            exact Option.noConfusion hxgb
          · simp only [unregLoop, hb, hxgb]
            have hda : (removeDestination f b).destinations a = some d := by
              rw [show (removeDestination f b).destinations a = f.destinations a from by
                simp [removeDestination, removeKey, hab]]
              exact hd
            rw [ih (removeDestination f b) a d harest hda hxg]

/-- The xgress search loop panics when the first address holding a
registered destination holds a non-xgress one. -/
theorem xgSearchLoop_panic (f : Forwarder) : ∀ (pre : List Address) (a : Address) (rest : List Address) (d : Destination),
    (∀ b ∈ pre, f.destinations b = none) → f.destinations a = some d → d.asXgress = none →
    xgSearchLoop f (pre ++ a :: rest) = .panicked := by
  intro pre
  induction pre with
  | nil =>
    intro a rest d _ hd hxg
    simp only [List.nil_append, xgSearchLoop, hd, hxg]
  | cons b pre1 ih =>
    intro a rest d hpre hd hxg
    have hb := hpre b (List.mem_cons_self b pre1)
    show xgSearchLoop f (b :: (pre1 ++ a :: rest)) = _
    simp only [xgSearchLoop, hb]
    exact ih a rest d (fun c hc => hpre c (List.mem_cons_of_mem _ hc)) hd hxg

/-- `ForwardPayload` leaves the forwarder state unchanged on every path. -/
theorem forwardPayload_fst (f : Forwarder) (srcAddr : Address) (payload : Payload) :
    (forwardPayload f srcAddr payload).1 = f := by
  unfold forwardPayload
  repeat' split
  all_goals rfl

/-- `ForwardAcknowledgement` leaves the forwarder state unchanged on every
path. -/
theorem forwardAcknowledgement_fst (f : Forwarder) (srcAddr : Address) (ack : Acknowledgement) :
    (forwardAcknowledgement f srcAddr ack).1 = f := by
  unfold forwardAcknowledgement
  repeat' split
  all_goals rfl

/-- C1: `ForwardPayload(srcAddr, payload)` performs exactly the strict
lookup chain session → src → dst → destination: it fails with the "no
forward table" error when the payload's session has no forward table, with
the "no destination address" error when the session exists but `srcAddr`
is unmapped, with the "no destination" error when the forwarded `dstAddr`
has no registered destination, and otherwise calls
`dest.SendPayload(payload)` and returns its error verbatim (nil on
success); a miss at any step is the authoritative and only error. -/
theorem c1_forwardPayload_follows_spec_chain (f : Forwarder) (srcAddr : Address) (payload : Payload) :
    forwardPayload f srcAddr payload = (f, specForwardPayloadChain f srcAddr payload) := by
  unfold forwardPayload specForwardPayloadChain
  cases hs : f.sessions payload.sessionId with
  | none => rfl
  | some ft =>
    cases hdst : ft srcAddr with
    | none => simp [hdst]
    | some dstAddr =>
      cases hd : f.destinations dstAddr with
      | none => simp [hdst, hd]
      | some dst =>
        cases hsend : dst.sendPayload payload with
        | none => simp [hdst, hd, hsend]
        | some e => simp [hdst, hd, hsend]

/-- C6: a lookup failure in `ForwardPayload` or `ForwardAcknowledgement`
(no forward table, no destination address, or no destination) returns an
error without mutating the session table, any forward table, or the
address map: the forwarder state is identical before and after the failed
call. -/
theorem c6_lookup_failure_mutates_nothing (f : Forwarder) (srcAddr : Address) (payload : Payload) (ack : Acknowledgement) :
    ((forwardPayload f srcAddr payload).2 = .errNoForwardTable ∨
      (forwardPayload f srcAddr payload).2 = .errNoDestinationAddress ∨
      (forwardPayload f srcAddr payload).2 = .errNoDestination →
      (forwardPayload f srcAddr payload).1 = f) ∧
    ((forwardAcknowledgement f srcAddr ack).2 = .errNoForwardTable ∨
      (forwardAcknowledgement f srcAddr ack).2 = .errNoDestinationAddress ∨
      (forwardAcknowledgement f srcAddr ack).2 = .errNoDestination →
      (forwardAcknowledgement f srcAddr ack).1 = f) :=
  ⟨fun _ => forwardPayload_fst f srcAddr payload,
   fun _ => forwardAcknowledgement_fst f srcAddr ack⟩

/-- Witness for C6: on the empty forwarder a payload and an
acknowledgement both fail the first lookup, and the state is unchanged. -/
theorem c6_witness :
    (forwardPayload emptyForwarder "a" ⟨"s"⟩).1 = emptyForwarder ∧
    (forwardAcknowledgement emptyForwarder "a" ⟨"s"⟩).1 = emptyForwarder :=
  ⟨(c6_lookup_failure_mutates_nothing emptyForwarder "a" ⟨"s"⟩ ⟨"s"⟩).1 (Or.inl rfl),
   (c6_lookup_failure_mutates_nothing emptyForwarder "a" ⟨"s"⟩ ⟨"s"⟩).2 (Or.inl rfl)⟩

/-- C10: after `UnregisterLink(link)`, `HasDestination` on the link's
identity token is false, and neither `RegisterLink` nor `UnregisterLink`
changes any session→address mapping or any forward table. -/
theorem c10_link_lifecycle_frame (f : Forwarder) (l : LinkData) :
    hasDestination (unregisterLink f l) l.token = false ∧
    (unregisterLink f l).sessionAddresses = f.sessionAddresses ∧
    (registerLink f l).sessionAddresses = f.sessionAddresses ∧
    (unregisterLink f l).sessions = f.sessions ∧
    (registerLink f l).sessions = f.sessions := by
  refine ⟨?_, rfl, rfl, rfl, rfl⟩
  simp [hasDestination, unregisterLink, removeDestination, removeKey]

/-- C2: after `Unroute(sessionId, immediate=true)` returns, the session's
forward-table entry is removed, and every subsequent `ForwardPayload` for
that session fails with the NoForwardTable error (until a new `Route`
installs a table for the session). -/
theorem c2_unroute_immediate_blocks_forwarding (f f1 : Forwarder) (sid : SessionId) (calls : List XgressData)
    (h : unrouteImmediate f sid = some (f1, calls)) :
    f1.sessions sid = none ∧
    (∀ (srcAddr : Address) (payload : Payload), payload.sessionId = sid →
      forwardPayload f1 srcAddr payload = (f1, .errNoForwardTable)) ∧
    (∀ msg : RouteMsg, msg.sessionId = sid → ((route f1 msg).sessions sid).isSome) := by
  have h1 : unregisterDestinations (removeForwardTable f sid) sid = some (f1, calls) := h
  obtain ⟨hsess, -⟩ := unregisterDestinations_state (removeForwardTable f sid) f1 sid calls h1
  have hnone : f1.sessions sid = none := by
    rw [hsess]
    simp [removeForwardTable, removeKey]
  refine ⟨hnone, ?_, ?_⟩
  · intro srcAddr payload hp
    unfold forwardPayload
    rw [hp, hnone]
  · intro msg hm
    show (setKey f1.sessions msg.sessionId _ sid).isSome
    rw [← hm, setKey_self]
    rfl

/-- Witness for C2: a concrete unroute on a routed session, after which a
payload for that session is rejected with NoForwardTable. -/
theorem c2_witness :
    unroutedForwarder.sessions "s1" = none ∧
    forwardPayload unroutedForwarder "a" ⟨"s1"⟩ = (unroutedForwarder, .errNoForwardTable) ∧
    ((route unroutedForwarder ⟨"s1", [⟨"a", "b"⟩]⟩).sessions "s1").isSome :=
  ⟨(c2_unroute_immediate_blocks_forwarding routedForwarder unroutedForwarder "s1" [sampleXgress] rfl).1,
   (c2_unroute_immediate_blocks_forwarding routedForwarder unroutedForwarder "s1" [sampleXgress] rfl).2.1 "a" ⟨"s1"⟩ rfl,
   (c2_unroute_immediate_blocks_forwarding routedForwarder unroutedForwarder "s1" [sampleXgress] rfl).2.2 ⟨"s1", [⟨"a", "b"⟩]⟩ rfl⟩

/-- C8: `Unroute(sessionId, immediate=true)` applied twice in succession
is safe: after the first application the forward table and the session's
addresses are gone, so the second application is a no-op that neither
fails nor changes state. -/
theorem c8_unroute_immediate_twice_noop (f f1 : Forwarder) (sid : SessionId) (calls : List XgressData)
    (h : unrouteImmediate f sid = some (f1, calls)) :
    f1.sessions sid = none ∧ f1.sessionAddresses sid = none ∧
    unrouteImmediate f1 sid = some (f1, []) := by
  have h1 : unregisterDestinations (removeForwardTable f sid) sid = some (f1, calls) := h
  obtain ⟨hsess, hsaddr⟩ := unregisterDestinations_state (removeForwardTable f sid) f1 sid calls h1
  have hnone : f1.sessions sid = none := by
    rw [hsess]
    simp [removeForwardTable, removeKey]
  refine ⟨hnone, hsaddr, ?_⟩
  have hrm : removeForwardTable f1 sid = f1 := by
    unfold removeForwardTable
    rw [removeKey_eq_of_none f1.sessions sid hnone]
  show endSession (removeForwardTable f1 sid) sid = some (f1, [])
  rw [hrm]
  show unregisterDestinations f1 sid = some (f1, [])
  simp [unregisterDestinations, hsaddr]

/-- Witness for C8: the concrete double unroute on a routed session. -/
theorem c8_witness :
    unroutedForwarder.sessions "s1" = none ∧
    unroutedForwarder.sessionAddresses "s1" = none ∧
    unrouteImmediate unroutedForwarder "s1" = some (unroutedForwarder, []) :=
  c8_unroute_immediate_twice_noop routedForwarder unroutedForwarder "s1" [sampleXgress] rfl

/-- C3: `UnregisterDestinations(sessionId)` obtains the session's address
set and, for each address whose destination is found, removes that
destination from the address map and dispatches exactly one `Unrouted()`
call to it (here: it appears exactly once in the list of dispatched
calls); it then unlinks the session from the session→address index; if the
session has no addresses it is a no-op. -/
theorem c3_unregister_destinations_effect (f : Forwarder) (sid : SessionId) :
    (f.sessionAddresses sid = none → unregisterDestinations f sid = some (f, [])) ∧
    (∀ addrs, f.sessionAddresses sid = some addrs → addrs.Nodup →
      (∀ a ∈ addrs, ∀ d, f.destinations a = some d → (d.asXgress).isSome) →
      ∃ f1 calls, unregisterDestinations f sid = some (f1, calls) ∧
        calls = addrs.filterMap (fun a => (f.destinations a).bind Destination.asXgress) ∧
        (∀ a ∈ addrs, f1.destinations a = none) ∧
        (∀ a, a ∉ addrs → f1.destinations a = f.destinations a) ∧
        f1.sessionAddresses sid = none ∧
        (∀ s, s ≠ sid → f1.sessionAddresses s = f.sessionAddresses s) ∧
        f1.sessions = f.sessions) := by
  constructor
  · intro h
    simp [unregisterDestinations, h]
  · intro addrs haddr hnd hx
    obtain ⟨f1, calls, hrun, hcalls, hgone, hframe, hsess, hsaddr⟩ := unregLoop_spec addrs f hnd hx
    refine ⟨unlinkSession f1 sid, calls, ?_, hcalls, hgone, hframe, ?_, ?_, hsess⟩
    · simp [unregisterDestinations, haddr, hrun]
    · simp [unlinkSession, removeKey]
    · intro s hssid
      show removeKey f1.sessionAddresses sid s = _
      rw [removeKey, if_neg hssid, hsaddr]

/-- Witness for C3: unregistering session `s1` of the routed forwarder
removes the destination at `b` and dispatches exactly one `Unrouted()` to
it. -/
theorem c3_witness :
    ∃ f1 calls, unregisterDestinations routedForwarder "s1" = some (f1, calls) ∧
      calls = ["b"].filterMap (fun a => (routedForwarder.destinations a).bind Destination.asXgress) ∧
      (∀ a ∈ ["b"], f1.destinations a = none) ∧
      (∀ a, a ∉ ["b"] → f1.destinations a = routedForwarder.destinations a) ∧
      f1.sessionAddresses "s1" = none ∧
      (∀ s, s ≠ "s1" → f1.sessionAddresses s = routedForwarder.sessionAddresses s) ∧
      f1.sessions = routedForwarder.sessions :=
  (c3_unregister_destinations_effect routedForwarder "s1").2 ["b"] rfl (by decide) (by
    intro a ha d hd
    have hab : a = "b" := List.mem_singleton.mp ha
    subst hab
    have hexp : routedForwarder.destinations "b" = some (Destination.xgress sampleXgress) := rfl
    rw [hexp] at hd
    injection hd with hde
    rw [← hde]
    rfl)

/-- C4: when the session already has a forward table, `Route` merges the
message's forwards into it per source address (last-writer-wins) rather
than replacing the table, and `Route` applied twice with identical content
leaves the engine in exactly the state of `Route` applied once. -/
theorem c4_route_merges_and_is_idempotent (f : Forwarder) (msg : RouteMsg) :
    (∀ ft, f.sessions msg.sessionId = some ft →
      ∃ ft1, (route f msg).sessions msg.sessionId = some ft1 ∧
        ∀ src, ft1 src = match lastForwardFor src msg.forwards with
                         | some d => some d
                         | none => ft src) ∧
    route (route f msg) msg = route f msg := by
  constructor
  · intro ft hft
    refine ⟨applyForwards ft msg.forwards, ?_, ?_⟩
    · have hproj : (route f msg).sessions msg.sessionId
          = some (applyForwards (getOrCreateForwardTable f.sessions msg.sessionId) msg.forwards) := by
        show setKey _ _ _ _ = _
        rw [setKey_self]
      rw [hproj]
      rw [show getOrCreateForwardTable f.sessions msg.sessionId = ft from by
        simp [getOrCreateForwardTable, hft]]
    · intro src
      exact applyForwards_apply msg.forwards ft src
  · have hA : (route f msg).sessions
        = setKey f.sessions msg.sessionId
            (applyForwards (getOrCreateForwardTable f.sessions msg.sessionId) msg.forwards) := rfl
    have hsome : (route f msg).sessions msg.sessionId
        = some (applyForwards (getOrCreateForwardTable f.sessions msg.sessionId) msg.forwards) := by
      rw [hA, setKey_self]
    have hC : getOrCreateForwardTable (route f msg).sessions msg.sessionId
        = applyForwards (getOrCreateForwardTable f.sessions msg.sessionId) msg.forwards := by
      simp [getOrCreateForwardTable, hsome]
    refine Forwarder.ext ?_ rfl rfl
    show setKey (route f msg).sessions msg.sessionId
        (applyForwards (getOrCreateForwardTable (route f msg).sessions msg.sessionId) msg.forwards)
        = (route f msg).sessions
    rw [hC, applyForwards_idem, hA, setKey_setKey]

/-- Witness for C4: merging a second route message into session `s1` of
the routed forwarder, and re-routing the routed forwarder with its own
message. -/
theorem c4_witness :
    (∃ ft1, (route routedForwarder ⟨"s1", [⟨"c", "b"⟩]⟩).sessions "s1" = some ft1 ∧
      ∀ src, ft1 src = match lastForwardFor src [⟨"c", "b"⟩] with
                       | some d => some d
                       | none => applyForwards newForwardTable [⟨"a", "b"⟩] src) ∧
    route (route routedForwarder ⟨"s1", [⟨"c", "b"⟩]⟩) ⟨"s1", [⟨"c", "b"⟩]⟩
      = route routedForwarder ⟨"s1", [⟨"c", "b"⟩]⟩ :=
  ⟨(c4_route_merges_and_is_idempotent routedForwarder ⟨"s1", [⟨"c", "b"⟩]⟩).1
      (applyForwards newForwardTable [⟨"a", "b"⟩]) rfl,
   (c4_route_merges_and_is_idempotent routedForwarder ⟨"s1", [⟨"c", "b"⟩]⟩).2⟩

/-- C9: `RegisterDestination(sessionId, addr, dest)` adds the destination
to the addr→destination map strictly before linking `addr` into the
session index (`registerDestination` is literally the linking applied to
the adding), and invariant I1 — every linked address resolves in the
destination map — is preserved both at the intermediate state after the
add and at the final state. -/
theorem c9_register_adds_before_linking (f : Forwarder) (sid : SessionId) (addr : Address) (dest : Destination)
    (h : DestLinkInvariant f) :
    DestLinkInvariant (addDestination f addr dest) ∧
    DestLinkInvariant (registerDestination f sid addr dest) ∧
    registerDestination f sid addr dest
      = linkDestinationToSession (addDestination f addr dest) sid addr := by
  have hdest : ∀ a, a ≠ addr → (addDestination f addr dest).destinations a = f.destinations a := by
    intro a ha
    show setKey f.destinations addr dest a = _
    rw [setKey, if_neg ha]
  have hdaddr : (addDestination f addr dest).destinations addr = some dest := setKey_self _ _ _
  have hadd : DestLinkInvariant (addDestination f addr dest) := by
    intro s addrs a hs ha
    by_cases hab : a = addr
    · subst hab
      rw [hdaddr]
      rfl
    · rw [hdest a hab]
      exact h s addrs a hs ha
  refine ⟨hadd, ?_, rfl⟩
  intro s addrs a hs ha
  by_cases hab : a = addr
  · show ((addDestination f addr dest).destinations a).isSome
    rw [hab, hdaddr]
    rfl
  · show ((addDestination f addr dest).destinations a).isSome
    rw [hdest a hab]
    have hs' : (if s = sid then
        some (match f.sessionAddresses sid with
              | some addrs0 => if addr ∈ addrs0 then addrs0 else addrs0 ++ [addr]
              | none => [addr])
        else f.sessionAddresses s) = some addrs := hs
    by_cases hss : s = sid
    · rw [if_pos hss] at hs'
      injection hs' with haddrs
      cases hfs : f.sessionAddresses sid with
      | none =>
        simp only [hfs] at haddrs
        rw [← haddrs] at ha
        exact absurd (List.mem_singleton.mp ha) hab
      | some addrs0 =>
        simp only [hfs] at haddrs
        have ha0 : a ∈ addrs0 := by
          by_cases hmem : addr ∈ addrs0
          · rw [if_pos hmem] at haddrs
            rw [← haddrs] at ha
            exact ha
          · rw [if_neg hmem] at haddrs
            rw [← haddrs] at ha
            rcases List.mem_append.mp ha with h0 | h1
            · exact h0
            · exact absurd (List.mem_singleton.mp h1) hab
        exact h sid addrs0 a hfs ha0
    · rw [if_neg hss] at hs'
      exact h s addrs a hs' ha

/-- Witness for C9: registering a destination on the empty forwarder,
whose invariant I1 holds vacuously. -/
theorem c9_witness :
    DestLinkInvariant (addDestination emptyForwarder "a" (Destination.xgress sampleXgress)) ∧
    DestLinkInvariant (registerDestination emptyForwarder "s1" "a" (Destination.xgress sampleXgress)) ∧
    registerDestination emptyForwarder "s1" "a" (Destination.xgress sampleXgress)
      = linkDestinationToSession (addDestination emptyForwarder "a" (Destination.xgress sampleXgress)) "s1" "a" :=
  c9_register_adds_before_linking emptyForwarder "s1" "a" (Destination.xgress sampleXgress)
    (fun _ _ _ hs _ => Option.noConfusion hs)

/-- Counterexample for C5 as stated: in `mixedForwarder`, a link
destination is linked to session `s1` via `RegisterDestination` and does
not implement `XgressDestination`, yet `getXgressForSession` does not
panic — it returns the xgress destination found at the earlier address. -/
theorem c5_counterexample :
    mixedForwarder.sessionAddresses "s1" = some ["ax", "al"] ∧
    mixedForwarder.destinations "al" = some (Destination.link sampleLink) ∧
    (Destination.link sampleLink).asXgress = none ∧
    getXgressForSession mixedForwarder "s1" = XgSearch.found sampleXgress ∧
    getXgressForSession mixedForwarder "s1" ≠ XgSearch.panicked :=
  ⟨rfl, rfl, rfl, rfl, fun h => XgSearch.noConfusion
    (Eq.mpr (congrArg (fun r => r = XgSearch.panicked)
      (rfl : getXgressForSession mixedForwarder "s1" = XgSearch.found sampleXgress).symm) h)⟩

/-- C5 (amended): `UnregisterDestinations` performs an unchecked type
assertion and panics whenever any address linked to the session holds a
registered destination that is not an `XgressDestination`;
`getXgressForSession` performs the same assertion but only on the first
linked address holding a registered destination, and panics when that
destination is not an `XgressDestination`. -/
theorem c5_amended_unchecked_assertions_panic (f : Forwarder) (sid : SessionId) :
    (∀ addrs a d, f.sessionAddresses sid = some addrs → a ∈ addrs →
      f.destinations a = some d → d.asXgress = none →
      unregisterDestinations f sid = none) ∧
    (∀ pre a rest d, f.sessionAddresses sid = some (pre ++ a :: rest) →
      (∀ b ∈ pre, f.destinations b = none) →
      f.destinations a = some d → d.asXgress = none →
      getXgressForSession f sid = XgSearch.panicked) := by
  constructor
  · intro addrs a d haddr ha hd hxg
    simp [unregisterDestinations, haddr, unregLoop_panic addrs f a d ha hd hxg]
  · intro pre a rest d haddr hpre hd hxg
    simp [getXgressForSession, haddr, xgSearchLoop_panic f pre a rest d hpre hd hxg]

/-- Witness for the amended C5: unregistering `s1` of `mixedForwarder`
panics on the linked link destination, and the xgress search for `s2` of
`linkOnlyForwarder` panics because its first registered destination is a
link. -/
theorem c5_witness :
    unregisterDestinations mixedForwarder "s1" = none ∧
    getXgressForSession linkOnlyForwarder "s2" = XgSearch.panicked :=
  ⟨(c5_amended_unchecked_assertions_panic mixedForwarder "s1").1
      ["ax", "al"] "al" (Destination.link sampleLink) rfl (by decide) rfl rfl,
   (c5_amended_unchecked_assertions_panic linkOnlyForwarder "s2").2
      [] "al" [] (Destination.link sampleLink) rfl (fun b hb => absurd hb (List.not_mem_nil b)) rfl rfl⟩

/-- C7: the unroute timeout worker, on each tick, resolves the session's
xgress destination: if none exists it reaps (removes the forward table and
ends the session, then stops); otherwise it computes
Δ = now_ms − `GetTimeOfLastRxFromLink()` and reaps exactly when
Δ·1ms ≥ interval, else it stays scheduled; on the close-notify signal it
exits with the tables untouched. -/
theorem c7_unroute_timeout_worker_step (f : Forwarder) (sid : SessionId) (intervalNs nowMs : Int) :
    unrouteTimeoutStep f sid intervalNs WorkerEvent.closeNotify = StepResult.exited f ∧
    (getXgressForSession f sid = XgSearch.noneFound →
      unrouteTimeoutStep f sid intervalNs (WorkerEvent.tick nowMs) = reapSession f sid) ∧
    (∀ x, getXgressForSession f sid = XgSearch.found x →
      (nowMs - x.timeOfLastRxFromLink) * timeDurationMillisecond ≥ intervalNs →
      unrouteTimeoutStep f sid intervalNs (WorkerEvent.tick nowMs) = reapSession f sid) ∧
    (∀ x, getXgressForSession f sid = XgSearch.found x →
      (nowMs - x.timeOfLastRxFromLink) * timeDurationMillisecond < intervalNs →
      unrouteTimeoutStep f sid intervalNs (WorkerEvent.tick nowMs) = StepResult.stillScheduled f) := by
  refine ⟨rfl, ?_, ?_, ?_⟩
  · intro h
    simp [unrouteTimeoutStep, h]
  · intro x h hge
    simp [unrouteTimeoutStep, h, hge]
  · intro x h hlt
    simp [unrouteTimeoutStep, h, not_le.mpr hlt]

/-- Witness for C7: concrete ticks with a 5ms interval — a session with no
xgress destination reaps, an idle destination (Δ = 10ms) reaps, a fresh
one (Δ = 2ms) stays scheduled, and close-notify exits untouched. -/
theorem c7_witness :
    unrouteTimeoutStep idleForwarder "s7" 5000000 WorkerEvent.closeNotify = StepResult.exited idleForwarder ∧
    unrouteTimeoutStep emptyForwarder "s7" 5000000 (WorkerEvent.tick 10) = reapSession emptyForwarder "s7" ∧
    unrouteTimeoutStep idleForwarder "s7" 5000000 (WorkerEvent.tick 10) = reapSession idleForwarder "s7" ∧
    unrouteTimeoutStep idleForwarder "s7" 5000000 (WorkerEvent.tick 2) = StepResult.stillScheduled idleForwarder :=
  ⟨(c7_unroute_timeout_worker_step idleForwarder "s7" 5000000 10).1,
   (c7_unroute_timeout_worker_step emptyForwarder "s7" 5000000 10).2.1 rfl,
   (c7_unroute_timeout_worker_step idleForwarder "s7" 5000000 10).2.2.1 sampleXgress rfl (by decide),
   (c7_unroute_timeout_worker_step idleForwarder "s7" 5000000 2).2.2.2 sampleXgress rfl (by decide)⟩

end ZitiForwarder
